import Mathlib

/-!
Verification of the Vision orchestrator (src/index.ts) against its
natural-language specification.  The TypeScript source is shallowly
embedded: the persisted files (history.jsonl, cron-state.json, ALERTS.txt)
become explicit state values threaded through the functions, the Telegram
and agent transports become parameters/effect lists, and the agent stream
becomes an explicit list of stream messages.
-/

set_option linter.unusedVariables false
set_option maxRecDepth 4000

/-- Constant ASSISTANT_NAME from the source. -/
def assistantName : String := "JARVIS"

/-- Constant MAX_HISTORY from the source. -/
def maxHistory : Nat := 100

/-- Role field of a persisted message (source: interface Message, role). -/
inductive Role where
  | user
  | assistant
  deriving DecidableEq, Repr

/-- A persisted history record (source: interface Message).  In the source,
timestamp is produced by the system clock; here it is threaded in as a
string argument. -/
structure Message where
  role : Role
  content : String
  timestamp : String
  chatId : Option Int
  sessionId : Option String
  deriving DecidableEq, Repr

/-- The in-memory session cache (source: sessionStore, a Map from chatId to
sessionId).  Modelled as an association list with Map semantics: set
overwrites, get finds the entry, delete removes it. -/
abbrev SessionStore := List (Int × String)

/-- sessionStore.get(chatId). -/
def sessionStoreGet (store : SessionStore) (chatId : Int) : Option String :=
  (store.find? (fun p => p.1 == chatId)).map (fun p => p.2)

/-- sessionStore.set(chatId, sessionId). -/
def sessionStoreSet (store : SessionStore) (chatId : Int) (sid : String) : SessionStore :=
  (chatId, sid) :: store.filter (fun p => p.1 != chatId)

/-- Source function clearSession: sessionStore.delete(chatId). -/
def clearSession (store : SessionStore) (chatId : Int) : SessionStore :=
  store.filter (fun p => p.1 != chatId)

/-- Source function addToHistory: load, push the new record, splice off the
oldest entries beyond MAX_HISTORY, save.  The backing file is modelled as
the list of messages it holds. -/
def addToHistory (history : List Message) (role : Role) (content : String)
    (timestamp : String) (chatId : Option Int) (sessionId : Option String) : List Message :=
  let h := history ++
    [{ role := role, content := content, timestamp := timestamp,
       chatId := chatId, sessionId := sessionId }]
  if maxHistory < h.length then h.drop (h.length - maxHistory) else h

/-- JS truthiness of the sessionId field: present and non-empty. -/
def sessionIdTruthy (m : Message) : Bool :=
  match m.sessionId with
  | some s => s ≠ ""
  | none => false

/-- The backwards loop inside getSessionId, expressed as a forward scan of
the reversed history: return the sessionId of the first record (scanning
from newest to oldest) whose chatId matches and whose sessionId is truthy. -/
def findSessionScan : List Message → Int → Option String
  | [], _ => none
  | m :: rest, chatId =>
    if m.chatId == some chatId && sessionIdTruthy m then m.sessionId
    else findSessionScan rest chatId

/-- Source function getSessionId: scan history from newest to oldest for a
record of this chat carrying a sessionId; only when none is found fall back
to the in-memory sessionStore. -/
def getSessionId (history : List Message) (store : SessionStore) (chatId : Int) :
    Option String :=
  match findSessionScan history.reverse chatId with
  | some s => some s
  | none => sessionStoreGet store chatId

/-- Folding a sequence of records through addToHistory, starting from a
given backing-file state (a sequence of append calls). -/
def appendTurns (history : List Message) (turns : List Message) : List Message :=
  turns.foldl
    (fun h m => addToHistory h m.role m.content m.timestamp m.chatId m.sessionId)
    history

theorem appendTurns_drop (ts : List Message) :
    appendTurns [] ts = ts.drop (ts.length - maxHistory) := by
  induction ts using List.reverseRecOn with
  | nil => rfl
  | append_singleton ts m ih =>
    have hfold : appendTurns [] (ts ++ [m]) =
        addToHistory (appendTurns [] ts) m.role m.content m.timestamp m.chatId m.sessionId := by
      simp [appendTurns, List.foldl_append]
    rw [hfold, ih]
    unfold addToHistory
    have hmk : (⟨m.role, m.content, m.timestamp, m.chatId, m.sessionId⟩ : Message) = m := rfl
    rw [hmk]
    have hk : ts.length - maxHistory ≤ ts.length := Nat.sub_le _ _
    rw [← List.drop_append_of_le_length hk]
    by_cases hcase :
        maxHistory < ((ts ++ [m]).drop (ts.length - maxHistory)).length
    · rw [if_pos hcase, List.drop_drop]
      congr 1
      simp only [List.length_drop, List.length_append, List.length_cons,
        List.length_nil] at hcase ⊢
      omega
    · rw [if_neg hcase]
      congr 1
      simp only [List.length_drop, List.length_append, List.length_cons,
        List.length_nil, not_lt] at hcase ⊢
      omega

/-- C8: for every sequence of MAX_HISTORY + 5 appends to the history store
starting from an empty backing file, the store afterwards holds exactly
MAX_HISTORY (= 100) records: the oldest five appended records are dropped
and the survivors are exactly the remaining records in append order. -/
theorem historyRetentionBound (ts : List Message) (h : ts.length = maxHistory + 5) :
    appendTurns [] ts = ts.drop 5 ∧ (appendTurns [] ts).length = maxHistory := by
  rw [appendTurns_drop]
  constructor
  · congr 1
    omega
  · simp only [List.length_drop]
    omega

/-- Sample record used by concrete witnesses. -/
def sampleTurn : Message :=
  ⟨Role.user, "x", "t", none, none⟩

theorem historyRetentionBoundWitness :
    appendTurns [] (List.replicate (maxHistory + 5) sampleTurn) =
        (List.replicate (maxHistory + 5) sampleTurn).drop 5 ∧
      (appendTurns [] (List.replicate (maxHistory + 5) sampleTurn)).length = maxHistory :=
  historyRetentionBound _ (by simp)

/-- C2: evaluation of the code at the failing input.  History holds one
assistant record for chat 42 carrying session handle "sess-old"; the cache
is populated and then cleared by clearSession (the /reset path).  The
subsequent lookup still returns the stale handle "sess-old" from durable
history, because getSessionId consults history before the in-memory cache,
contradicting the specified behaviour that a lookup after clear and before
any new turn returns no handle. -/
theorem sessionLookupStaleAfterClear :
    getSessionId [⟨Role.assistant, "", "t0", some 42, some "sess-old"⟩]
        (clearSession (sessionStoreSet [] 42 "sess-old") 42) 42 =
      some "sess-old" := by
  decide

/-- Externally visible actions taken through the Telegram transport or
towards the agent runner.  reply models ctx.reply / bot.api.sendMessage of a
fresh message, editStatus models ctx.api.editMessageText of the status
message, agentCall models opening a streaming query (recording the prompt
and the resume handle passed), alertSend models the alert sendMessage
attempt together with its outcome. -/
inductive Effect where
  | reply (chatId : Int) (text : String)
  | editStatus (chatId : Int) (text : String)
  | agentCall (prompt : String) (resume : Option String)
  | alertSend (chatId : Int) (text : String) (delivered : Bool)
  deriving DecidableEq, Repr

/-- Whitespace test used by the char-level model of the JS string helpers. -/
def isWsChar (c : Char) : Bool :=
  c = ' ' || c = '\n' || c = '\t' || c = '\r'

/-- JS String.prototype.trim, modelled at the character-list level (strip
whitespace from both ends). -/
def jsTrim (s : String) : String :=
  String.mk (((s.data.dropWhile isWsChar).reverse.dropWhile isWsChar).reverse)

/-- Source function checkForAlerts.  The ALERTS.txt file is modelled as an
Option String (none = file missing), the configured chat id is the first
entry of ALLOWED_CHAT_IDS (0 models the JS-falsy guard), and sendOk is the
outcome of the Telegram sendMessage call.  The try/catch around the send
only logs a failure; the file write that clears the mailbox runs after it
in either case.  Returns the new mailbox state and the visible effects. -/
def checkForAlerts (mailbox : Option String) (chatId : Int) (sendOk : Bool) :
    Option String × List Effect :=
  match mailbox with
  | none => (none, [])
  | some content =>
    let alerts := jsTrim content
    if alerts = "" then (some content, [])
    else if chatId = 0 then (some content, [])
    else (some "", [Effect.alertSend chatId ("🔔 " ++ assistantName ++ ":\n\n" ++ alerts) sendOk])

/-- C1 counterexample: with a non-empty mailbox "A" and a failing delivery,
the sweep still truncates the mailbox to the empty string; the content is
not left in place for the next sweep as the claim states. -/
theorem alertSweepTruncationCounterexample :
    checkForAlerts (some "A") 42 false =
        (some "", [Effect.alertSend 42 ("🔔 " ++ assistantName ++ ":\n\nA") false]) ∧
      (some "" : Option String) ≠ some "A" := by
  constructor
  · rfl
  · decide

/-- C1 amended: on every sweep in which the mailbox exists, is non-empty
after trimming, and a recipient chat is configured, exactly one delivery
attempt is made and the mailbox is truncated to empty regardless of whether
that delivery succeeded or failed. -/
theorem alertSweepTruncatesUnconditionally (content : String) (chatId : Int) (sendOk : Bool)
    (hne : jsTrim content ≠ "") (hchat : chatId ≠ 0) :
    checkForAlerts (some content) chatId sendOk =
      (some "",
        [Effect.alertSend chatId ("🔔 " ++ assistantName ++ ":\n\n" ++ jsTrim content) sendOk]) := by
  simp [checkForAlerts, hne, hchat]

theorem alertSweepTruncatesUnconditionallyWitness :
    checkForAlerts (some "A") 42 true =
      (some "", [Effect.alertSend 42 ("🔔 " ++ assistantName ++ ":\n\nA") true]) :=
  alertSweepTruncatesUnconditionally "A" 42 true (by decide) (by decide)

/-- The standard base64 alphabet used by Buffer.toString with encoding
base64. -/
def base64Table : List Char :=
  "ABCDEFGHIJKLMNOPQRSTUVWXYZabcdefghijklmnopqrstuvwxyz0123456789+/".data

/-- Character for a six-bit group. -/
def b64c (n : Nat) : Char :=
  base64Table.getD n 'A'

/-- Base64 encoding of a byte sequence (values below 256), with the usual
padding, as produced by Buffer.toString. -/
def base64Encode : List Nat → List Char
  | b1 :: b2 :: b3 :: rest =>
    b64c (b1 / 4) :: b64c (b1 % 4 * 16 + b2 / 16) :: b64c (b2 % 16 * 4 + b3 / 64) ::
      b64c (b3 % 64) :: base64Encode rest
  | [b1, b2] => [b64c (b1 / 4), b64c (b1 % 4 * 16 + b2 / 16), b64c (b2 % 16 * 4), '=']
  | [b1] => [b64c (b1 / 4), b64c (b1 % 4 * 16), '=', '=']
  | [] => []

/-- UTF-8 encoding of one character as byte values. -/
def utf8EncodeCharNat (c : Char) : List Nat :=
  let n := c.toNat
  if n < 128 then [n]
  else if n < 2048 then [192 + n / 64, 128 + n % 64]
  else if n < 65536 then [224 + n / 4096, 128 + n / 64 % 64, 128 + n % 64]
  else [240 + n / 262144, 128 + n / 4096 % 64, 128 + n / 64 % 64, 128 + n % 64]

/-- UTF-8 byte sequence of a string, as produced by Buffer.from. -/
def utf8Bytes (s : String) : List Nat :=
  s.data.flatMap utf8EncodeCharNat

/-- The deterministic job id from setupCronJobs:
auto- followed by the first eight base64 characters of the task text. -/
def jobId (task : String) : String :=
  "auto-" ++ String.mk ((base64Encode (utf8Bytes task)).take 8)

/-- A materialized recurring job (source: interface CronJob). -/
structure CronJob where
  id : String
  name : String
  schedule : String
  task : String
  enabled : Bool
  lastRun : Option String
  deriving DecidableEq, Repr

/-- The persisted cron-state.json content (source: interface CronState). -/
structure CronState where
  jobs : List CronJob
  deriving DecidableEq, Repr

/-- The job record pushed for a directive that has no existing job
(setupCronJobs, newJobs.push). -/
def mkCronJob (cronExpr task : String) : CronJob :=
  { id := jobId task, name := String.mk (task.data.take 50), schedule := cronExpr,
    task := task, enabled := true, lastRun := none }

/-- The while loop of setupCronJobs: for each parsed (expression, task)
directive, push a new job unless a job with the same id already exists in
the loaded state.  Note the existence check consults only the jobs loaded
at the start of the pass, exactly as in the source. -/
def newJobsFor (jobs : List CronJob) : List (String × String) → List CronJob
  | [] => []
  | p :: rest =>
    if jobs.any (fun j => j.id == jobId p.2) then newJobsFor jobs rest
    else mkCronJob p.1 p.2 :: newJobsFor jobs rest

/-- One reconciliation pass of setupCronJobs over the parsed directives of
the checklist document: the loaded jobs plus the newly materialized ones. -/
def reconcileJobs (jobs : List CronJob) (directives : List (String × String)) :
    List CronJob :=
  jobs ++ newJobsFor jobs directives

/-- C4 counterexample: the directives share the trigger 0 8 * * * and have
different task texts, yet reconciliation materializes jobs with the same
id, because the id keeps only the first eight base64 characters (the first
six bytes) of the task text; and reconciling the second directive after the
first leaves a single job instead of two. -/
theorem cronJobIdCollisionCounterexample :
    jobId "Send morning briefing" = jobId "Send more coffee" ∧
      "Send morning briefing" ≠ "Send more coffee" ∧
      (reconcileJobs (reconcileJobs [] [("0 8 * * *", "Send morning briefing")])
          [("0 8 * * *", "Send more coffee")]).length = 1 := by
  refine ⟨?_, by decide, ?_⟩
  · rfl
  · rfl

theorem b64c_inj : ∀ n, n < 64 → ∀ m, m < 64 → b64c n = b64c m → n = m := by decide

theorem char_toNat_lt (c : Char) : c.toNat < 1114112 := by
  have h := c.valid
  have he : c.toNat = c.val.toNat := rfl
  rcases h with h | h
  · have hlt : c.val.toNat < 55296 := h
    omega
  · have hlt : c.val.toNat < 1114112 := h.2
    omega

theorem utf8EncodeCharNat_lt (c : Char) : ∀ b ∈ utf8EncodeCharNat c, b < 256 := by
  have hc := char_toNat_lt c
  intro b hb
  simp only [utf8EncodeCharNat] at hb
  by_cases h1 : c.toNat < 128
  · simp only [if_pos h1, List.mem_singleton] at hb
    omega
  · by_cases h2 : c.toNat < 2048
    · simp only [if_neg h1, if_pos h2, List.mem_cons, List.not_mem_nil, or_false] at hb
      rcases hb with rfl | rfl <;> omega
    · by_cases h3 : c.toNat < 65536
      · simp only [if_neg h1, if_neg h2, if_pos h3, List.mem_cons, List.not_mem_nil,
          or_false] at hb
        rcases hb with rfl | rfl | rfl <;> omega
      · simp only [if_neg h1, if_neg h2, if_neg h3, List.mem_cons, List.not_mem_nil,
          or_false] at hb
        rcases hb with rfl | rfl | rfl | rfl <;> omega

theorem utf8Bytes_lt (s : String) : ∀ b ∈ utf8Bytes s, b < 256 := by
  intro b hb
  simp only [utf8Bytes, List.mem_flatMap] at hb
  obtain ⟨c, _, hc⟩ := hb
  exact utf8EncodeCharNat_lt c b hc

theorem exists_six_head {α : Type} (l : List α) (h : 6 ≤ l.length) :
    ∃ a b c d e f r, l = a :: b :: c :: d :: e :: f :: r :=
  match l, h with
  | a :: b :: c :: d :: e :: f :: r, _ => ⟨a, b, c, d, e, f, r, rfl⟩
  | [], h => absurd h (by simp)
  | [a], h => absurd h (by simp)
  | [a, b], h => absurd h (by simp)
  | [a, b, c], h => absurd h (by simp)
  | [a, b, c, d], h => absurd h (by simp)
  | [a, b, c, d, e], h => absurd h (by simp)

theorem base64Encode_take_eight (a b c d e f : Nat) (r : List Nat) :
    (base64Encode (a :: b :: c :: d :: e :: f :: r)).take 8 =
      [b64c (a / 4), b64c (a % 4 * 16 + b / 16), b64c (b % 16 * 4 + c / 64), b64c (c % 64),
       b64c (d / 4), b64c (d % 4 * 16 + e / 16), b64c (e % 16 * 4 + f / 64), b64c (f % 64)] := by
  rfl

theorem jobId_inj_of_prefix_ne (t1 t2 : String)
    (h1 : 6 ≤ (utf8Bytes t1).length) (h2 : 6 ≤ (utf8Bytes t2).length)
    (hne : (utf8Bytes t1).take 6 ≠ (utf8Bytes t2).take 6) :
    jobId t1 ≠ jobId t2 := by
  obtain ⟨a, b, c, d, e, f, r, hd1⟩ := exists_six_head (utf8Bytes t1) h1
  obtain ⟨a2, b2, c2, d2, e2, f2, r2, hd2⟩ := exists_six_head (utf8Bytes t2) h2
  have hb1 := utf8Bytes_lt t1
  have hb2 := utf8Bytes_lt t2
  rw [hd1] at hb1
  rw [hd2] at hb2
  have ha : a < 256 := hb1 a (by simp)
  have hb : b < 256 := hb1 b (by simp)
  have hc : c < 256 := hb1 c (by simp)
  have hd : d < 256 := hb1 d (by simp)
  have he : e < 256 := hb1 e (by simp)
  have hf : f < 256 := hb1 f (by simp)
  have ha2 : a2 < 256 := hb2 a2 (by simp)
  have hbb2 : b2 < 256 := hb2 b2 (by simp)
  have hc2 : c2 < 256 := hb2 c2 (by simp)
  have hd2b : d2 < 256 := hb2 d2 (by simp)
  have he2 : e2 < 256 := hb2 e2 (by simp)
  have hf2 : f2 < 256 := hb2 f2 (by simp)
  intro heq
  apply hne
  have hdata : ((base64Encode (utf8Bytes t1)).take 8) = ((base64Encode (utf8Bytes t2)).take 8) := by
    have hmk := congrArg String.data heq
    simp only [jobId] at hmk
    have hL : ("auto-" ++ String.mk ((base64Encode (utf8Bytes t1)).take 8)).data =
        'a' :: 'u' :: 't' :: 'o' :: '-' :: (base64Encode (utf8Bytes t1)).take 8 := rfl
    have hR : ("auto-" ++ String.mk ((base64Encode (utf8Bytes t2)).take 8)).data =
        'a' :: 'u' :: 't' :: 'o' :: '-' :: (base64Encode (utf8Bytes t2)).take 8 := rfl
    rw [hL, hR] at hmk
    simpa using hmk
  rw [hd1, hd2, base64Encode_take_eight, base64Encode_take_eight] at hdata
  simp only [List.cons.injEq, and_true] at hdata
  obtain ⟨q1, q2, q3, q4, q5, q6, q7, q8⟩ := hdata
  have s1 : a / 4 = a2 / 4 := b64c_inj _ (by omega) _ (by omega) q1
  have s2 : a % 4 * 16 + b / 16 = a2 % 4 * 16 + b2 / 16 := b64c_inj _ (by omega) _ (by omega) q2
  have s3 : b % 16 * 4 + c / 64 = b2 % 16 * 4 + c2 / 64 := b64c_inj _ (by omega) _ (by omega) q3
  have s4 : c % 64 = c2 % 64 := b64c_inj _ (by omega) _ (by omega) q4
  have s5 : d / 4 = d2 / 4 := b64c_inj _ (by omega) _ (by omega) q5
  have s6 : d % 4 * 16 + e / 16 = d2 % 4 * 16 + e2 / 16 := b64c_inj _ (by omega) _ (by omega) q6
  have s7 : e % 16 * 4 + f / 64 = e2 % 16 * 4 + f2 / 64 := b64c_inj _ (by omega) _ (by omega) q7
  have s8 : f % 64 = f2 % 64 := b64c_inj _ (by omega) _ (by omega) q8
  rw [hd1, hd2]
  have : a = a2 ∧ b = b2 ∧ c = c2 ∧ d = d2 ∧ e = e2 ∧ f = f2 := by omega
  obtain ⟨rfl, rfl, rfl, rfl, rfl, rfl⟩ := this
  rfl

theorem reconcileJobs_covers (jobs : List CronJob) (ds : List (String × String)) :
    ∀ p ∈ ds, ∃ j ∈ reconcileJobs jobs ds, j.id = jobId p.2 := by
  induction ds with
  | nil => intro p hp; simp at hp
  | cons q rest ih =>
    intro p hp
    have hrec : reconcileJobs jobs (q :: rest) =
        jobs ++ (if jobs.any (fun j => j.id == jobId q.2) then newJobsFor jobs rest
                 else mkCronJob q.1 q.2 :: newJobsFor jobs rest) := rfl
    rw [hrec]
    rcases List.mem_cons.mp hp with hpq | hmem
    · subst hpq
      by_cases hq : jobs.any (fun j => j.id == jobId p.2)
      · rw [if_pos hq]
        obtain ⟨j, hj, hjid⟩ := List.any_eq_true.mp hq
        exact ⟨j, List.mem_append_left _ hj, beq_iff_eq.mp hjid⟩
      · rw [if_neg hq]
        exact ⟨mkCronJob p.1 p.2, List.mem_append_right _ (List.mem_cons_self _ _), rfl⟩
    · obtain ⟨j, hj, hjid⟩ := ih p hmem
      rcases List.mem_append.mp (show j ∈ jobs ++ newJobsFor jobs rest from hj) with hl | hr
      · refine ⟨j, ?_, hjid⟩
        by_cases hq : jobs.any (fun j => j.id == jobId q.2)
        · rw [if_pos hq]; exact List.mem_append_left _ hl
        · rw [if_neg hq]; exact List.mem_append_left _ hl
      · refine ⟨j, ?_, hjid⟩
        by_cases hq : jobs.any (fun j => j.id == jobId q.2)
        · rw [if_pos hq]; exact List.mem_append_right _ hr
        · rw [if_neg hq]; exact List.mem_append_right _ (List.mem_cons_of_mem _ hr)

theorem newJobsFor_eq_nil (js : List CronJob) (ds : List (String × String))
    (hcov : ∀ p ∈ ds, ∃ j ∈ js, j.id = jobId p.2) :
    newJobsFor js ds = [] := by
  induction ds with
  | nil => rfl
  | cons q rest ih =>
    obtain ⟨j, hj, hjid⟩ := hcov q (List.mem_cons_self _ _)
    have hq : js.any (fun k => k.id == jobId q.2) = true :=
      List.any_eq_true.mpr ⟨j, hj, beq_iff_eq.mpr hjid⟩
    show (if js.any (fun k => k.id == jobId q.2) then newJobsFor js rest
          else mkCronJob q.1 q.2 :: newJobsFor js rest) = []
    rw [if_pos hq]
    exact ih (fun p hp => hcov p (List.mem_cons_of_mem _ hp))

theorem reconcileJobs_idempotent (jobs : List CronJob) (ds : List (String × String)) :
    reconcileJobs (reconcileJobs jobs ds) ds = reconcileJobs jobs ds := by
  have h := newJobsFor_eq_nil (reconcileJobs jobs ds) ds (reconcileJobs_covers jobs ds)
  simp only [reconcileJobs] at h ⊢
  rw [h, List.append_nil]

/-- C4 amended: re-running reconciliation over the same parsed directives is
idempotent (identical task text never creates a duplicate job across
passes), and two directives with the same trigger expression and different
task texts materialize two jobs with distinct ids, provided the task texts
already differ within their first six UTF-8 bytes; the job id is a
deterministic function of the first six bytes of the task text only, so
task texts sharing a six-byte prefix collide (see the counterexample). -/
theorem cronReconcileIdempotentDistinctIds (jobs : List CronJob)
    (ds : List (String × String)) (cronExpr t1 t2 : String)
    (h1 : 6 ≤ (utf8Bytes t1).length) (h2 : 6 ≤ (utf8Bytes t2).length)
    (hne : (utf8Bytes t1).take 6 ≠ (utf8Bytes t2).take 6) :
    reconcileJobs (reconcileJobs jobs ds) ds = reconcileJobs jobs ds ∧
      jobId t1 ≠ jobId t2 ∧
      (reconcileJobs [] [(cronExpr, t1), (cronExpr, t2)]).map CronJob.id =
        [jobId t1, jobId t2] := by
  refine ⟨reconcileJobs_idempotent jobs ds, jobId_inj_of_prefix_ne t1 t2 h1 h2 hne, ?_⟩
  simp [reconcileJobs, newJobsFor, mkCronJob]

theorem cronReconcileIdempotentDistinctIdsWitness :
    reconcileJobs (reconcileJobs [] [("0 8 * * *", "Send morning briefing")])
          [("0 8 * * *", "Send morning briefing")] =
        reconcileJobs [] [("0 8 * * *", "Send morning briefing")] ∧
      jobId "Send morning briefing" ≠ jobId "Check email now" ∧
      (reconcileJobs [] [("0 8 * * *", "Send morning briefing"), ("0 8 * * *", "Check email now")]).map
          CronJob.id =
        [jobId "Send morning briefing", jobId "Check email now"] :=
  cronReconcileIdempotentDistinctIds [] [("0 8 * * *", "Send morning briefing")]
    "0 8 * * *" "Send morning briefing" "Check email now"
    (by decide) (by decide) (by decide)

/-- The lastRun assignment inside executeCronTask: state.jobs.findIndex on
the job id followed by an in-place update of that entry (only the first
matching entry, and no write when the id is absent). -/
def setLastRunFirst : List CronJob → String → String → List CronJob
  | [], _, _ => []
  | j :: rest, jid, now =>
    if j.id == jid then
      { j with lastRun := some now } :: rest
    else j :: setLastRunFirst rest jid now

/-- Source function executeCronTask.  The streamed agent call is summarized
by its outcome agentOk (false = the query raised and the catch block
logged); the cron-state.json file is modelled as the CronState value.  The
lastRun update sits inside the try block after the stream is consumed, so
it runs only when the agent call completed without error. -/
def executeCronTask (s : CronState) (job : CronJob) (agentOk : Bool) (now : String) :
    CronState :=
  if agentOk then { jobs := setLastRunFirst s.jobs job.id now }
  else s

/-- Concrete schedule store used by the C5 counterexample. -/
def c5Job : CronJob :=
  { id := jobId "Backup the database", name := "Backup the database",
    schedule := "0 3 * * *", task := "Backup the database", enabled := true,
    lastRun := none }

/-- C5 counterexample: a fired cron job whose agent call raises an error
leaves the schedule store untouched — its lastRun stays none instead of
being updated unconditionally after the call returns. -/
theorem cronLastRunNotUpdatedOnErrorCounterexample :
    executeCronTask { jobs := [c5Job] } c5Job false "2026-10-11T00:00:00Z" =
        { jobs := [c5Job] } ∧
      ({ jobs := [c5Job] } : CronState).jobs.map CronJob.lastRun = [none] := by
  constructor
  · rfl
  · rfl

theorem setLastRunFirst_mem (l : List CronJob) (jid now : String)
    (hmem : ∃ k ∈ l, k.id = jid) :
    ∃ k ∈ setLastRunFirst l jid now, k.id = jid ∧ k.lastRun = some now := by
  induction l with
  | nil => simp at hmem
  | cons j rest ih =>
    by_cases hj : j.id == jid
    · refine ⟨{ j with lastRun := some now }, ?_, beq_iff_eq.mp hj, rfl⟩
      show _ ∈ (if j.id == jid then { j with lastRun := some now } :: rest
          else j :: setLastRunFirst rest jid now)
      rw [if_pos hj]
      exact List.mem_cons_self _ _
    · have hrest : ∃ k ∈ rest, k.id = jid := by
        obtain ⟨k, hk, hkid⟩ := hmem
        rcases List.mem_cons.mp hk with rfl | hkr
        · exact absurd (beq_iff_eq.mpr hkid) (by simpa using hj)
        · exact ⟨k, hkr, hkid⟩
      obtain ⟨k, hk, hkid, hkrun⟩ := ih hrest
      refine ⟨k, ?_, hkid, hkrun⟩
      show _ ∈ (if j.id == jid then { j with lastRun := some now } :: rest
          else j :: setLastRunFirst rest jid now)
      rw [if_neg hj]
      exact List.mem_cons_of_mem _ hk

/-- C5 amended: the fired job's lastRun in the schedule store is updated
after the agent call returns only when the call succeeded; when the call
raises an error the schedule store is left entirely unchanged. -/
theorem cronLastRunUpdateOnSuccessOnly (s : CronState) (job : CronJob) (now : String)
    (hmem : ∃ k ∈ s.jobs, k.id = job.id) :
    executeCronTask s job false now = s ∧
      ∃ k ∈ (executeCronTask s job true now).jobs, k.id = job.id ∧ k.lastRun = some now := by
  exact ⟨rfl, setLastRunFirst_mem s.jobs job.id now hmem⟩

theorem cronLastRunUpdateOnSuccessOnlyWitness :
    executeCronTask { jobs := [c5Job] } c5Job false "2026-10-11T00:00:00Z" =
        { jobs := [c5Job] } ∧
      ∃ k ∈ (executeCronTask { jobs := [c5Job] } c5Job true "2026-10-11T00:00:00Z").jobs,
        k.id = c5Job.id ∧ k.lastRun = some "2026-10-11T00:00:00Z" :=
  cronLastRunUpdateOnSuccessOnly { jobs := [c5Job] } c5Job "2026-10-11T00:00:00Z"
    ⟨c5Job, List.mem_cons_self _ _, rfl⟩

/-- JSON value produced by JSON.parse. -/
inductive Json where
  | null
  | jbool (b : Bool)
  | num (s : String)
  | str (s : String)
  | arr (elems : List Json)
  | obj (fields : List (String × Json))

/-- Skip JSON whitespace. -/
def skipWs : List Char → List Char
  | c :: rest => if isWsChar c then skipWs rest else c :: rest
  | [] => []

/-- Hexadecimal digit value. -/
def hexVal (c : Char) : Option Nat :=
  if '0' ≤ c ∧ c ≤ '9' then some (c.toNat - 48)
  else if 'a' ≤ c ∧ c ≤ 'f' then some (c.toNat - 87)
  else if 'A' ≤ c ∧ c ≤ 'F' then some (c.toNat - 55)
  else none

/-- Single-character JSON string escapes. -/
def escChar (c : Char) : Option Char :=
  if c = '"' then some '"'
  else if c = '\\' then some '\\'
  else if c = '/' then some '/'
  else if c = 'b' then some (Char.ofNat 8)
  else if c = 'f' then some (Char.ofNat 12)
  else if c = 'n' then some '\n'
  else if c = 'r' then some '\r'
  else if c = 't' then some '\t'
  else none

/-- Body of a JSON string literal, after the opening quote. -/
def parseStrChars : List Char → Option (List Char × List Char)
  | [] => none
  | '"' :: rest => some ([], rest)
  | '\\' :: 'u' :: h1 :: h2 :: h3 :: h4 :: rest =>
    match hexVal h1, hexVal h2, hexVal h3, hexVal h4 with
    | some a, some b, some c, some d =>
      match parseStrChars rest with
      | some (cs, r) => some (Char.ofNat (a * 4096 + b * 256 + c * 16 + d) :: cs, r)
      | none => none
    | _, _, _, _ => none
  | '\\' :: c :: rest =>
    match escChar c with
    | some ec =>
      match parseStrChars rest with
      | some (cs, r) => some (ec :: cs, r)
      | none => none
    | none => none
  | c :: rest =>
    if c.toNat < 32 then none
    else
      match parseStrChars rest with
      | some (cs, r) => some (c :: cs, r)
      | none => none

/-- Integer part of a JSON number: 0, or a nonzero digit followed by
digits. -/
def parseIntPart : List Char → Option (List Char × List Char)
  | '0' :: rest => some (['0'], rest)
  | c :: rest =>
    if c.isDigit then
      let p := rest.span (fun d => d.isDigit)
      some (c :: p.1, p.2)
    else none
  | [] => none

/-- Optional fraction part of a JSON number. -/
def parseFracPart : List Char → Option (List Char × List Char)
  | '.' :: rest =>
    let p := rest.span (fun d => d.isDigit)
    if p.1 = [] then none else some ('.' :: p.1, p.2)
  | l => some ([], l)

/-- Optional exponent part of a JSON number. -/
def parseExpPart : List Char → Option (List Char × List Char)
  | c :: rest =>
    if c = 'e' ∨ c = 'E' then
      match rest with
      | s :: rest2 =>
        if s = '+' ∨ s = '-' then
          let p := rest2.span (fun d => d.isDigit)
          if p.1 = [] then none else some (c :: s :: p.1, p.2)
        else
          let p := rest.span (fun d => d.isDigit)
          if p.1 = [] then none else some (c :: p.1, p.2)
      | [] => none
    else some ([], c :: rest)
  | [] => some ([], [])

/-- JSON number, kept as its source text. -/
def parseNumber (l : List Char) : Option (Json × List Char) :=
  let sl : List Char × List Char :=
    match l with
    | '-' :: rest => (['-'], rest)
    | _ => ([], l)
  match parseIntPart sl.2 with
  | none => none
  | some (ip, l2) =>
    match parseFracPart l2 with
    | none => none
    | some (fp, l3) =>
      match parseExpPart l3 with
      | none => none
      | some (ep, l4) => some (Json.num (String.mk (sl.1 ++ ip ++ fp ++ ep)), l4)

mutual

/-- A JSON value, with a fuel bound on the recursion. -/
def parseValue : Nat → List Char → Option (Json × List Char)
  | 0, _ => none
  | Nat.succ fuel, input =>
    match skipWs input with
    | 'n' :: 'u' :: 'l' :: 'l' :: rest => some (Json.null, rest)
    | 't' :: 'r' :: 'u' :: 'e' :: rest => some (Json.jbool true, rest)
    | 'f' :: 'a' :: 'l' :: 's' :: 'e' :: rest => some (Json.jbool false, rest)
    | '"' :: rest =>
      match parseStrChars rest with
      | some (cs, r) => some (Json.str (String.mk cs), r)
      | none => none
    | '[' :: rest => parseArrayRest fuel rest
    | '\x7b' :: rest => parseObjectRest fuel rest
    | other => parseNumber other

/-- Array elements, after the opening bracket. -/
def parseArrayRest : Nat → List Char → Option (Json × List Char)
  | 0, _ => none
  | Nat.succ fuel, input =>
    match skipWs input with
    | ']' :: rest => some (Json.arr [], rest)
    | other =>
      match parseValue fuel other with
      | some (v, r) =>
        match parseArrayTail fuel r with
        | some (vs, r2) => some (Json.arr (v :: vs), r2)
        | none => none
      | none => none

/-- Further comma-separated array elements. -/
def parseArrayTail : Nat → List Char → Option (List Json × List Char)
  | 0, _ => none
  | Nat.succ fuel, input =>
    match skipWs input with
    | ',' :: rest =>
      match parseValue fuel rest with
      | some (v, r) =>
        match parseArrayTail fuel r with
        | some (vs, r2) => some (v :: vs, r2)
        | none => none
      | none => none
    | ']' :: rest => some ([], rest)
    | _ => none

/-- Object members, after the opening brace. -/
def parseObjectRest : Nat → List Char → Option (Json × List Char)
  | 0, _ => none
  | Nat.succ fuel, input =>
    match skipWs input with
    | '\x7d' :: rest => some (Json.obj [], rest)
    | other =>
      match parseMember fuel other with
      | some (kv, r) =>
        match parseObjectTail fuel r with
        | some (kvs, r2) => some (Json.obj (kv :: kvs), r2)
        | none => none
      | none => none

/-- One key/value member of an object. -/
def parseMember : Nat → List Char → Option ((String × Json) × List Char)
  | 0, _ => none
  | Nat.succ fuel, input =>
    match skipWs input with
    | '"' :: rest =>
      match parseStrChars rest with
      | some (cs, r) =>
        match skipWs r with
        | ':' :: r2 =>
          match parseValue fuel r2 with
          | some (v, r3) => some ((String.mk cs, v), r3)
          | none => none
        | _ => none
      | none => none
    | _ => none

/-- Further comma-separated object members. -/
def parseObjectTail : Nat → List Char → Option (List (String × Json) × List Char)
  | 0, _ => none
  | Nat.succ fuel, input =>
    match skipWs input with
    | ',' :: rest =>
      match parseMember fuel rest with
      | some (kv, r) =>
        match parseObjectTail fuel r with
        | some (kvs, r2) => some (kv :: kvs, r2)
        | none => none
      | none => none
    | '\x7d' :: rest => some ([], rest)
    | _ => none

end

/-- JSON.parse: a single JSON value with only whitespace around it; none
models the SyntaxError throw. -/
def parseJson (s : String) : Option Json :=
  match parseValue (2 * s.data.length + 4) s.data with
  | some (j, rest) => if skipWs rest = [] then some j else none
  | none => none

/-- JS String.prototype.split on newline, at the character-list level. -/
def splitOnNewline : List Char → List (List Char)
  | [] => [[]]
  | '\n' :: rest => [] :: splitOnNewline rest
  | c :: rest =>
    match splitOnNewline rest with
    | line :: more => (c :: line) :: more
    | [] => [[c]]

/-- The line sequence read by loadHistory:
content.trim().split(newline).filter(Boolean). -/
def historyLines (content : String) : List String :=
  ((splitOnNewline (jsTrim content).data).map String.mk).filter (fun l => l ≠ "")

/-- lines.map(line with JSON.parse(line)): the first unparseable line makes
the whole load throw.  The error value records that line. -/
def parseHistoryLines : List String → Except String (List Json)
  | [] => .ok []
  | line :: rest =>
    match parseJson line with
    | none => .error line
    | some j =>
      match parseHistoryLines rest with
      | .ok js => .ok (j :: js)
      | .error e => .error e

/-- Source function loadHistory at the raw-file level: a missing file yields
an empty list; otherwise every line must be parseable JSON, and a parse
failure propagates (there is no try/catch around JSON.parse).  The backing
file is modelled as an Option String (none = file missing); the records
stay as raw JSON values since the source casts without validation. -/
def loadHistory (file : Option String) : Except String (List Json) :=
  match file with
  | none => .ok []
  | some content => parseHistoryLines (historyLines content)

/-- Source function loadCronState at the raw-file level: a missing file
yields the default object with an empty jobs array; otherwise the whole
content is JSON.parsed, and a parse failure propagates (no try/catch). -/
def loadCronState (file : Option String) : Except String Json :=
  match file with
  | none => .ok (Json.obj [("jobs", Json.arr [])])
  | some content =>
    match parseJson content with
    | some j => .ok j
    | none => .error "parse error"

/-- C6 counterexample: a backing file whose content is the unparseable text
"corrupt" makes loadHistory and loadCronState raise a parse error instead
of returning an empty history / default state. -/
theorem loadCorruptRaisesCounterexample :
    loadHistory (some "corrupt") = .error "corrupt" ∧
      loadCronState (some "corrupt") = .error "parse error" :=
  ⟨rfl, rfl⟩

theorem parseHistoryLines_error (ls : List String)
    (hbad : ∃ line ∈ ls, (parseJson line).isNone = true) :
    ∃ e, parseHistoryLines ls = .error e := by
  induction ls with
  | nil => simp at hbad
  | cons l rest ih =>
    show ∃ e, (match parseJson l with
      | none => Except.error l
      | some j =>
        match parseHistoryLines rest with
        | .ok js => Except.ok (j :: js)
        | .error e => Except.error e) = Except.error e
    cases hpl : parseJson l with
    | none => exact ⟨l, rfl⟩
    | some j =>
      have hrest : ∃ line ∈ rest, (parseJson line).isNone = true := by
        obtain ⟨line, hline, hnone⟩ := hbad
        rcases List.mem_cons.mp hline with rfl | hmem
        · rw [hpl] at hnone
          simp at hnone
        · exact ⟨line, hmem, hnone⟩
      obtain ⟨e, he⟩ := ih hrest
      rw [he]
      exact ⟨e, rfl⟩

/-- C6 amended: a missing backing file degrades to an empty history and to
the default cron state, but corrupt (unparseable) content is not degraded
to empty: the JSON parse error propagates out of the load. -/
theorem loadMissingEmptyCorruptRaises (content ccontent : String)
    (hbad : ∃ line ∈ historyLines content, (parseJson line).isNone = true)
    (hcron : (parseJson ccontent).isNone = true) :
    loadHistory none = .ok [] ∧
      loadCronState none = .ok (Json.obj [("jobs", Json.arr [])]) ∧
      (∃ e, loadHistory (some content) = .error e) ∧
      loadCronState (some ccontent) = .error "parse error" := by
  refine ⟨rfl, rfl, parseHistoryLines_error _ hbad, ?_⟩
  show (match parseJson ccontent with
    | some j => Except.ok j
    | none => Except.error "parse error") = Except.error "parse error"
  cases hpc : parseJson ccontent with
  | none => rfl
  | some j => rw [hpc] at hcron; simp at hcron

theorem loadMissingEmptyCorruptRaisesWitness :
    loadHistory none = .ok [] ∧
      loadCronState none = .ok (Json.obj [("jobs", Json.arr [])]) ∧
      (∃ e, loadHistory (some "not json") = .error e) ∧
      loadCronState (some "not json") = .error "parse error" :=
  loadMissingEmptyCorruptRaises "not json" "not json"
    ⟨"not json", by decide, by rfl⟩ (by rfl)

/-- One content block of an assistant stream message. -/
inductive Block where
  | tool_use (name : String)
  | text (t : String)
  deriving DecidableEq, Repr

/-- One message of the agent stream: sessionId is present when the raw
message has a session_id field, blocks is present when msg.type is
assistant (then it is msg.message.content). -/
structure StreamMsg where
  sessionId : Option String
  blocks : Option (List Block)
  deriving DecidableEq, Repr

/-- The streamed agent call: the messages yielded before the stream either
completes (fails = false) or raises (fails = true, modelling a query error
thrown from the for-await loop after the listed messages). -/
structure AgentStream where
  msgs : List StreamMsg
  fails : Bool
  deriving DecidableEq, Repr

/-- Loop state of getAgentResponse: currentSessionId, finalResponse, the
statusMessage flag, and the visible effects so far.  (The throttled
sendChatAction typing indicator is transient and not recorded; the
editMessageText try/catch is modelled as the edit succeeding.) -/
structure LoopAcc where
  currentSessionId : String
  finalResponse : String
  hasStatus : Bool
  effs : List Effect
  deriving DecidableEq, Repr

/-- Per-block processing inside the stream loop of getAgentResponse. -/
def processBlock (chatId : Int) (acc : LoopAcc) (b : Block) : LoopAcc :=
  match b with
  | Block.tool_use name =>
    let status := assistantName ++ ": " ++ name ++ "..."
    if acc.hasStatus then { acc with effs := acc.effs ++ [Effect.editStatus chatId status] }
    else { acc with hasStatus := true, effs := acc.effs ++ [Effect.reply chatId status] }
  | Block.text t => { acc with finalResponse := acc.finalResponse ++ t }

/-- Per-message processing inside the stream loop of getAgentResponse:
record a session_id field when present, then process assistant content
blocks. -/
def processStreamMsg (chatId : Int) (acc : LoopAcc) (m : StreamMsg) : LoopAcc :=
  let acc1 :=
    match m.sessionId with
    | some s => { acc with currentSessionId := s }
    | none => acc
  match m.blocks with
  | some bs => bs.foldl (processBlock chatId) acc1
  | none => acc1

/-- Result of getAgentResponse: the returned text (or the propagated
error), together with the new history, session store, and visible
effects. -/
structure AgentResult where
  outcome : Except Unit String
  history : List Message
  store : SessionStore
  effects : List Effect
  deriving Repr

/-- Source function getAgentResponse: look up the resume handle, open the
streaming query (recorded as an agentCall effect), consume the stream; if
the stream raises, the error propagates with no history or cache update;
otherwise, when a session id was observed, update the cache and append an
empty assistant record carrying it, then send the final text (with the
assistant-name prefix) and return it, defaulting to "Done." when the
stream produced no text. -/
def getAgentResponse (history : List Message) (store : SessionStore) (userMessage : String)
    (chatId : Int) (stream : AgentStream) (now : String) : AgentResult :=
  let resume := getSessionId history store chatId
  let acc0 : LoopAcc := ⟨"", "", false, [Effect.agentCall userMessage resume]⟩
  let acc := stream.msgs.foldl (processStreamMsg chatId) acc0
  if stream.fails then ⟨Except.error (), history, store, acc.effs⟩
  else
    let store1 :=
      if acc.currentSessionId ≠ "" then sessionStoreSet store chatId acc.currentSessionId
      else store
    let history1 :=
      if acc.currentSessionId ≠ "" then
        addToHistory history Role.assistant "" now (some chatId) (some acc.currentSessionId)
      else history
    let output := if acc.finalResponse = "" then "Done." else acc.finalResponse
    let finalEff :=
      if acc.hasStatus then Effect.editStatus chatId (assistantName ++ ": " ++ output)
      else Effect.reply chatId (assistantName ++ ": " ++ output)
    ⟨Except.ok output, history1, store1, acc.effs ++ [finalEff]⟩

/-- The /start banner text. -/
def startMessage : String :=
  assistantName ++ " ready. Full agent capabilities enabled.\n\nFeatures:\n• Persistent sessions\n• Autonomous heartbeat monitoring\n• Scheduled cron tasks\n• Full filesystem access\n\nCommands:\n/reset - Clear session\n/status - Show status\n/heartbeat - Force heartbeat check\n/cron - List scheduled tasks"

/-- JS text.startsWith of a single slash, at the character level. -/
def startsWithSlash (s : String) : Bool :=
  match s.data with
  | '/' :: _ => true
  | _ => false

/-- Result of an inbound-message handler: history file, session cache, and
visible effects. -/
structure HandlerResult where
  history : List Message
  store : SessionStore
  effects : List Effect
  deriving DecidableEq, Repr

/-- The message:text handler: guard on a present chat id (0 models the
JS-falsy absent id), reject ids not on the allow-list with a fixed reply,
ignore slash commands other than /start, and otherwise run
getAgentResponse; on success append the user turn and the assistant turn,
on error reply with the generic error message and leave state untouched. -/
def handleTextMessage (allowed : List Int) (history : List Message) (store : SessionStore)
    (chatId : Int) (text : String) (stream : AgentStream) (now : String) : HandlerResult :=
  if chatId = 0 then ⟨history, store, []⟩
  else if !(allowed.contains chatId) then ⟨history, store, [Effect.reply chatId "Unauthorized."]⟩
  else if startsWithSlash text then
    if text = "/start" then ⟨history, store, [Effect.reply chatId startMessage]⟩
    else ⟨history, store, []⟩
  else
    let r := getAgentResponse history store text chatId stream now
    match r.outcome with
    | Except.ok response =>
      let h2 := addToHistory r.history Role.user text now (some chatId) none
      let h3 := addToHistory h2 Role.assistant response now (some chatId) none
      ⟨h3, r.store, r.effects⟩
    | Except.error _ =>
      ⟨r.history, r.store,
        r.effects ++ [Effect.reply chatId (assistantName ++ ": Error occurred.")]⟩

/-- The /reset command handler: unauthorized (or absent) chat ids get the
fixed reply; otherwise the cached session is dropped. -/
def handleResetCommand (allowed : List Int) (store : SessionStore) (chatId : Int) :
    SessionStore × List Effect :=
  if chatId = 0 || !(allowed.contains chatId) then (store, [Effect.reply chatId "Unauthorized."])
  else (clearSession store chatId, [Effect.reply chatId "Session cleared."])

/-- The agent stream of the end-to-end scenario: one session handle
"sess-1" and one text fragment "hi", completing normally. -/
def c7Stream : AgentStream :=
  ⟨[⟨some "sess-1", none⟩, ⟨none, some [Block.text "hi"]⟩], false⟩

/-- C7 counterexample: in the end-to-end scenario (allow-listed chat 42,
message "hello", stream yielding text "hi" and handle "sess-1"), no
history record with content "hi" carries the session handle — the handle
is stored on a separate empty assistant record — and the reply sent is not
the bare text "hi" (it carries the assistant-name prefix). -/
theorem endToEndScenarioCounterexample :
    ((handleTextMessage [42] [] [] 42 "hello" c7Stream "t0").history.all
        (fun m => !(m.content == "hi" && m.sessionId == some "sess-1"))) = true ∧
      ¬ Effect.reply 42 "hi" ∈ (handleTextMessage [42] [] [] 42 "hello" c7Stream "t0").effects := by
  constructor
  · rfl
  · decide

/-- C7 amended: in the end-to-end scenario the history gains three records
in order — an empty assistant record carrying sessionHandle "sess-1", the
user record "hello" without a handle, and the assistant record "hi"
without a handle; the session lookup for chat 42 then resolves to
"sess-1"; and the reply sent is "JARVIS: hi" (the final text with the
assistant-name prefix), after the agent was invoked with no resume
handle. -/
theorem endToEndScenarioActual :
    handleTextMessage [42] [] [] 42 "hello" c7Stream "t0" =
        ⟨[⟨Role.assistant, "", "t0", some 42, some "sess-1"⟩,
          ⟨Role.user, "hello", "t0", some 42, none⟩,
          ⟨Role.assistant, "hi", "t0", some 42, none⟩],
         [(42, "sess-1")],
         [Effect.agentCall "hello" none, Effect.reply 42 (assistantName ++ ": hi")]⟩ ∧
      getSessionId (handleTextMessage [42] [] [] 42 "hello" c7Stream "t0").history
          (handleTextMessage [42] [] [] 42 "hello" c7Stream "t0").store 42 =
        some "sess-1" := by
  constructor
  · rfl
  · rfl

/-- C9: an inbound text message or /reset command from a chat id that is
not on the allow-list (and is a real, nonzero Telegram id) gets exactly
the fixed "Unauthorized." reply, leaves the history and the session cache
unchanged, and makes no agent invocation. -/
theorem unauthorizedFixedReply (allowed : List Int) (history : List Message)
    (store : SessionStore) (chatId : Int) (text : String) (stream : AgentStream) (now : String)
    (h0 : chatId ≠ 0) (hna : allowed.contains chatId = false) :
    handleTextMessage allowed history store chatId text stream now =
        ⟨history, store, [Effect.reply chatId "Unauthorized."]⟩ ∧
      handleResetCommand allowed store chatId = (store, [Effect.reply chatId "Unauthorized."]) := by
  have hna2 : chatId ∉ allowed := by simpa using hna
  constructor
  · simp [handleTextMessage, h0, hna, hna2]
  · simp [handleResetCommand, h0, hna, hna2]

theorem unauthorizedFixedReplyWitness :
    handleTextMessage [42] [] [] 99 "hello" ⟨[], false⟩ "t0" =
        ⟨[], [], [Effect.reply 99 "Unauthorized."]⟩ ∧
      handleResetCommand [42] [] 99 = ([], [Effect.reply 99 "Unauthorized."]) :=
  unauthorizedFixedReply [42] [] [] 99 "hello" ⟨[], false⟩ "t0" (by decide) (by decide)

/-- The agent stream of the C10 counterexample: one tool-use block, then
the stream raises. -/
def c10Stream : AgentStream :=
  ⟨[⟨none, some [Block.tool_use "Bash"]⟩], true⟩

/-- C10 counterexample: when the stream emits a tool-use block before
raising, the status message "JARVIS: Bash..." has already been sent and
remains visible in the chat, so the generic error reply is not the only
externally visible effect of the failed exchange. -/
theorem agentErrorVisibleEffectsCounterexample :
    Effect.reply 42 (assistantName ++ ": Bash...") ∈
        (handleTextMessage [42] [] [] 42 "hello" c10Stream "t0").effects ∧
      Effect.reply 42 (assistantName ++ ": Bash...") ≠
        Effect.reply 42 (assistantName ++ ": Error occurred.") := by
  constructor
  · decide
  · decide

/-- C10 amended: when the agent invocation raises for an allow-listed,
non-command message, the history file and the in-memory session cache are
left completely unchanged (a later message resumes from the pre-error
handle) and the handler ends the exchange with the generic error reply;
however, progress/status messages sent before the error remain visible, so
the error reply is not necessarily the only visible effect. -/
theorem agentErrorStateUnchanged (allowed : List Int) (history : List Message)
    (store : SessionStore) (chatId : Int) (text : String) (stream : AgentStream) (now : String)
    (h0 : chatId ≠ 0) (hauth : allowed.contains chatId = true)
    (hslash : startsWithSlash text = false) (hfail : stream.fails = true) :
    (handleTextMessage allowed history store chatId text stream now).history = history ∧
      (handleTextMessage allowed history store chatId text stream now).store = store ∧
      (handleTextMessage allowed history store chatId text stream now).effects.getLast? =
        some (Effect.reply chatId (assistantName ++ ": Error occurred.")) := by
  have hr : getAgentResponse history store text chatId stream now =
      ⟨Except.error (), history, store,
        (stream.msgs.foldl (processStreamMsg chatId)
          ⟨"", "", false, [Effect.agentCall text (getSessionId history store chatId)]⟩).effs⟩ := by
    simp [getAgentResponse, hfail]
  have hauth2 : chatId ∈ allowed := by simpa using hauth
  simp [handleTextMessage, h0, hauth, hauth2, hslash, hr, List.getLast?_concat]

theorem agentErrorStateUnchangedWitness :
    (handleTextMessage [42] [] [] 42 "hello" c10Stream "t0").history = [] ∧
      (handleTextMessage [42] [] [] 42 "hello" c10Stream "t0").store = [] ∧
      (handleTextMessage [42] [] [] 42 "hello" c10Stream "t0").effects.getLast? =
        some (Effect.reply 42 (assistantName ++ ": Error occurred.")) :=
  agentErrorStateUnchanged [42] [] [] 42 "hello" c10Stream "t0"
    (by decide) (by decide) (by decide) (by decide)
